import Mathlib

/-!
Verification of the tiny-redis core against its specification.

This file shallowly embeds the parts of the source that the checked
properties speak about:

* `src/core/storage.rs` — the typed keyspace (`Storage`), its expiration
  bookkeeping, integer arithmetic and list operations;
* `src/core/mod.rs` — the command dispatcher (`Core::handle_command`);
* `src/connection/outbound.rs` — the RESP encoder (`encode`);
* `src/connection/inbound.rs` — the RESP token stream (`TokenIter`);
* `src/server.rs` — one iteration of the dispatcher loop.

Modelling conventions:

* Bytes are `Nat`s; `Vec<u8>` is `List Nat`; keys (`Key(Vec<u8>)`) are
  byte lists.  `isize` is `Int` (no operation near the claims can
  overflow a 64-bit machine integer on the inputs the claims range over).
* `Instant` is a `Nat` of milliseconds on the monotonic clock; every
  operation that calls `Instant::now()` receives the current instant
  `now` as an explicit argument.
* `HashMap` is an association list without duplicate keys; insertion
  replaces the first matching binding in place (or appends), deletion
  removes the first matching binding, exactly mirroring map semantics on
  the duplicate-free states the program can reach.
* The `BinaryHeap` of `(key, instant)` pairs is modelled as a multiset
  (a list; `push` conses).  The only heap consumer, `scan_expired_keys`,
  pops while the root's instant is `<= now`; by the heap ordering this
  drains exactly the entries with instant `<= now`, which is how the
  model expresses it.
* Fallible paths return `Except`/`Option`; paths on which the Rust code
  panics (`unwrap`, `unreachable!`, out-of-range slice index,
  `Vec::remove` on an empty vector) are modelled by an explicit panic
  outcome.
-/

namespace TinyRedis

/-- Keys are opaque byte strings (`struct Key(pub Vec<u8>)`). -/
abbrev Key := List Nat

/-- StorageValue from `storage.rs`: `String(Vec<u8>) | Integer(isize) |
List(VecDeque<Vec<u8>>)`.  The deque is a list whose head is the front. -/
inductive StorageValue
  | string (s : List Nat)
  | integer (n : Int)
  | list (l : List (List Nat))
  deriving DecidableEq, Repr

/-- Error taxonomy of `storage.rs` (`StorageError`). -/
inductive StorageError
  | wrongOperationType
  | notInteger
  deriving DecidableEq, Repr

/-- Entry of the main table: `ValueWithExpiration(StorageValue, Option<Instant>)`. -/
abbrev Entry := StorageValue × Option Nat

/-- Which end of a list deque an operation works on (`ListEnd`). -/
inductive ListEnd
  | front
  | back
  deriving DecidableEq, Repr

/-- Lookup of the first binding of a key, mirroring `HashMap::get`. -/
def tableLookup : List (Key × Entry) → Key → Option Entry
  | [], _ => none
  | (k', e) :: rest, k => if k' = k then some e else tableLookup rest k

/-- Insert mirroring `HashMap::insert`: replace the first binding in
place, or append a fresh one. -/
def tableInsert : List (Key × Entry) → Key → Entry → List (Key × Entry)
  | [], k, e => [(k, e)]
  | (k', e') :: rest, k, e =>
    if k' = k then (k, e) :: rest else (k', e') :: tableInsert rest k e

/-- Removal mirroring `HashMap::remove`; the flag reports whether a
binding was removed. -/
def tableRemove : List (Key × Entry) → Key → List (Key × Entry) × Bool
  | [], _ => ([], false)
  | (k', e') :: rest, k =>
    if k' = k then (rest, true)
    else
      let (t, b) := tableRemove rest k
      ((k', e') :: t, b)

/-- The store of `storage.rs`: the main table plus the expiration queue
(`key_expiration_queue`, a heap modelled as a multiset). -/
structure Storage where
  table : List (Key × Entry)
  heap : List (Key × Nat)
  deriving DecidableEq, Repr

namespace Storage

/-- Storage::new. -/
def new : Storage := ⟨[], []⟩

/-- Storage::get_raw (also get_raw_mut's read): an entry whose stored
expiration is in the future reads as absent; an entry with expiration
`<= now` still reads as present, exactly as the guard `*exp > now`
dictates. -/
def getRaw (st : Storage) (key : Key) (now : Nat) : Option StorageValue :=
  match tableLookup st.table key with
  | some (v, some exp) => if exp > now then none else some v
  | some (v, none) => some v
  | none => none

/-- Storage::set: insert with the expiration cleared.  The source is
generic over `ToStorageValue`; each call site's conversion is applied
before calling this model. -/
def setOp (st : Storage) (key : Key) (v : StorageValue) : Storage :=
  { st with table := tableInsert st.table key (v, none) }

/-- Write through `get_raw_mut`'s mutable borrow: replace the value of
the first binding of the key, keeping its expiration. -/
def updateValue (st : Storage) (key : Key) (v : StorageValue) : Storage :=
  { st with table := updFirst st.table key v }
where
  updFirst : List (Key × Entry) → Key → StorageValue → List (Key × Entry)
  | [], _, _ => []
  | (k', (v', e)) :: rest, k, v =>
    if k' = k then (k, (v, e)) :: rest else (k', (v', e)) :: updFirst rest k v

/-- Storage::get. -/
def getOp (st : Storage) (key : Key) (now : Nat) :
    Except StorageError (Option StorageValue) :=
  match st.getRaw key now with
  | none => .ok none
  | some (.string s) => .ok (some (.string s))
  | some (.integer n) => .ok (some (.integer n))
  | some _ => .error .wrongOperationType

/-- Storage::incr.  On an absent (or expired) key the source executes
`self.set(key.clone(), 1 as isize); Ok(1)` — it stores and returns the
literal `1`, not the increment `inc`. -/
def incrOp (st : Storage) (key : Key) (inc : Int) (now : Nat) :
    Storage × Except StorageError Int :=
  match st.getRaw key now with
  | none => (st.setOp key (.integer 1), .ok 1)
  | some (.integer n) => (st.updateValue key (.integer (n + inc)), .ok (n + inc))
  | some _ => (st, .error .notInteger)

/-- Storage::push. -/
def pushOp (st : Storage) (key : Key) (values : List (List Nat))
    (listEnd : ListEnd) (now : Nat) : Storage × Except StorageError Nat :=
  match st.getRaw key now with
  | none =>
    let vs := match listEnd with
      | .front => values.reverse
      | .back => values
    (st.setOp key (.list vs), .ok values.length)
  | some (.list l) =>
    let l' := match listEnd with
      | .front => values.foldl (fun acc v => v :: acc) l
      | .back => l ++ values
    (st.updateValue key (.list l'), .ok l'.length)
  | some _ => (st, .error .wrongOperationType)

/-- One `pop_front`/`pop_back` on the deque. -/
def popOne (listEnd : ListEnd) (l : List (List Nat)) :
    Option (List Nat × List (List Nat)) :=
  match listEnd with
  | .front =>
    match l with
    | [] => none
    | v :: rest => some (v, rest)
  | .back =>
    match l.reverse with
    | [] => none
    | v :: rest => some (v, rest.reverse)

/-- The `for _ in 1..=count` loop of Storage::pop: pop until `count`
values are taken or the deque runs out. -/
def popN (listEnd : ListEnd) : Nat → List (List Nat) →
    List (List Nat) × List (List Nat)
  | 0, l => ([], l)
  | n + 1, l =>
    match popOne listEnd l with
    | none => ([], l)
    | some (v, l') =>
      let (vs, rest) := popN listEnd n l'
      (v :: vs, rest)

/-- Storage::pop. -/
def popOp (st : Storage) (key : Key) (count : Nat) (listEnd : ListEnd)
    (now : Nat) : Storage × Except StorageError (Option (List (List Nat))) :=
  match st.getRaw key now with
  | none => (st, .ok none)
  | some (.list l) =>
    let p := popN listEnd count l
    (st.updateValue key (.list p.2),
      if p.1 = [] then .ok none else .ok (some p.1))
  | some _ => (st, .error .wrongOperationType)

/-- Storage::delete. -/
def deleteOp (st : Storage) (key : Key) : Storage × Bool :=
  let (t, b) := tableRemove st.table key
  ({ st with table := t }, b)

/-- Storage::is_exist: raw table membership, blind to expirations. -/
def isExist (st : Storage) (key : Key) : Bool :=
  (tableLookup st.table key).isSome

/-- Storage::is_expire. -/
def isExpire (st : Storage) (key : Key) (now : Nat) : Option Bool :=
  match tableLookup st.table key with
  | some (_, some exp) => if exp ≤ now then some true else some false
  | some (_, none) => some false
  | none => none

/-- Storage::expire: set the entry's expiration to `now + ttl`
milliseconds when the key is in the table, and push the pair onto the
expiration queue unconditionally. -/
def expireOp (st : Storage) (key : Key) (ttlMs : Nat) (now : Nat) : Storage :=
  let exp := now + ttlMs
  { table := updExp st.table key exp, heap := (key, exp) :: st.heap }
where
  updExp : List (Key × Entry) → Key → Nat → List (Key × Entry)
  | [], _, _ => []
  | (k', (v, e)) :: rest, k, x =>
    if k' = k then (k, (v, some x)) :: rest else (k', (v, e)) :: updExp rest k x

/-- Storage::ttl.  `Instant::duration_since` saturates to zero for past
instants, which truncated `Nat` subtraction reproduces; `as_secs` is
floor division by 1000. -/
def ttlOp (st : Storage) (key : Key) (now : Nat) : Int :=
  match tableLookup st.table key with
  | some (_, some exp) => ((exp - now) / 1000 : Nat)
  | some (_, none) => -1
  | none => -2

/-- Storage::scan_expired_keys: drain every queue entry whose instant is
`<= now` (what the pop-while-root-due loop achieves through the heap
ordering) and return their keys. -/
def scanExpiredKeys (st : Storage) (now : Nat) : List Key × Storage :=
  ((st.heap.filter (fun p => p.2 ≤ now)).map (fun p => p.1),
    { st with heap := st.heap.filter (fun p => ¬ p.2 ≤ now) })

end Storage

/-- Command from `core/mod.rs` (the `EXPIRE` ttl is a `usize`, the pop
counts are `usize`). -/
inductive Command
  | del (keys : List Key)
  | expire (key : Key) (ttl : Nat)
  | ttl (key : Key)
  | existsKeys (keys : List Key)
  | flush
  | get (key : Key)
  | set (key : Key) (value : List Nat)
  | setNx (key : Key) (value : List Nat)
  | getSet (key : Key) (value : List Nat)
  | getDel (key : Key)
  | mGet (keys : List Key)
  | mSet (keys : List Key) (values : List (List Nat))
  | incr (key : Key)
  | decr (key : Key)
  | incrBy (key : Key) (value : List Nat)
  | decrBy (key : Key) (value : List Nat)
  | lPush (key : Key) (values : List (List Nat))
  | rPush (key : Key) (values : List (List Nat))
  | lPop (key : Key) (count : Nat)
  | rPop (key : Key) (count : Nat)
  | expIntervalCheck
  deriving Repr

/-- CommandResponse from `core/mod.rs`.  Error messages stay `String`s
(the source builds them with `String::from`). -/
inductive CommandResponse
  | simpleString (s : List Nat)
  | bulkString (b : List Nat)
  | integer (n : Int)
  | array (items : List CommandResponse)
  | error (msg : String)
  | null
  | nullArray
  deriving Repr

/-- The canonical wrong-type error text. -/
def wrongTypeMsg : String :=
  "WRONGTYPE Operation against a key holding the wrong kind of value"

/-- The canonical not-an-integer error text. -/
def notIntegerMsg : String := "ERR value is not an integer or out of range"

/-- Core::translate_error. -/
def translateError : StorageError → CommandResponse
  | .wrongOperationType => .error wrongTypeMsg
  | .notInteger => .error notIntegerMsg

/-- ASCII decimal digits of a natural number (`usize` formatting). -/
def asciiOfNat (n : Nat) : List Nat :=
  if h : n < 10 then [48 + n]
  else asciiOfNat (n / 10) ++ [48 + n % 10]
decreasing_by exact Nat.div_lt_self (by omega) (by omega)

/-- ASCII of a signed integer (`isize::to_string`). -/
def asciiOfInt (n : Int) : List Nat :=
  if n < 0 then 45 :: asciiOfNat (-n).toNat else asciiOfNat n.toNat

/-- Bytes of an ASCII `String` (error messages are plain ASCII). -/
def strBytes (s : String) : List Nat := s.data.map Char.toNat

/-- Whether a byte is an ASCII decimal digit. -/
def isDigit (b : Nat) : Bool := 48 ≤ b && b ≤ 57

/-- Value of a string of ASCII digits. -/
def digitsToNat (l : List Nat) : Nat :=
  l.foldl (fun acc b => acc * 10 + (b - 48)) 0

/-- Rust `str::parse::<isize>` composed with the UTF-8 check of
`bytes_to_integer` in `inbound.rs`: an optional sign followed by one or
more ASCII digits parses; everything else (including invalid UTF-8,
which also fails) is an error.  Overflow is not modelled: no length or
argument near the claims exceeds `isize`. -/
def parseIsize (bytes : List Nat) : Option Int :=
  match bytes with
  | [] => none
  | b :: rest =>
    if b = 43 then
      if rest ≠ [] ∧ rest.all isDigit then some (Int.ofNat (digitsToNat rest))
      else none
    else if b = 45 then
      if rest ≠ [] ∧ rest.all isDigit then some (-Int.ofNat (digitsToNat rest))
      else none
    else if (b :: rest).all isDigit then some (Int.ofNat (digitsToNat (b :: rest)))
    else none

/-- Core::get: the read used by `GET` and `MGET`. -/
def coreGet (st : Storage) (key : Key) (now : Nat) : CommandResponse :=
  match st.getOp key now with
  | .ok (some (.string s)) => .simpleString s
  | .ok (some (.integer n)) => .integer n
  | .ok (some (.list _)) => .error wrongTypeMsg
  | .ok none => .null
  | .error e => translateError e

/-- The MSET loop: `values.remove(0)` for each key in order; popping an
empty vector panics, modelled as `none`. -/
def msetLoop : Storage → List Key → List (List Nat) → Option Storage
  | st, [], _ => some st
  | _, _ :: _, [] => none
  | st, k :: ks, v :: vs => msetLoop (st.setOp k (.string v)) ks vs

/-- Response assembly for the `Incr`/`Decr`/`IncrBy`/`DecrBy` arms of
`handle_command`: `Ok(n)` becomes `Integer(n)`, errors are translated. -/
def intResponse : Except StorageError Int → CommandResponse
  | .ok n => .integer n
  | .error e => translateError e

/-- Response assembly for the `LPush`/`RPush` arms: the returned length
(`usize`) becomes `Integer`. -/
def natResponse : Except StorageError Nat → CommandResponse
  | .ok n => .integer n
  | .error e => translateError e

/-- Response assembly for the `LPop`/`RPop` arms: `Ok(None)` is `Null`,
`Ok(Some(values))` is an array of bulk strings, errors are translated. -/
def popResponse : Except StorageError (Option (List (List Nat))) → CommandResponse
  | .ok none => .null
  | .ok (some vals) => .array (vals.map (fun v => .bulkString v))
  | .error e => translateError e

/-- Core::handle_command.  The result is `none` exactly on the one panic
path inside the function (MSET with fewer values than keys); every other
branch returns the updated store and a response.  All clock reads within
the single call share `now`. -/
def handleCommand (st : Storage) (c : Command) (now : Nat) :
    Option (Storage × CommandResponse) :=
  match c with
  | .expIntervalCheck =>
    let p := st.scanExpiredKeys now
    some (p.1.foldl
      (fun s k => if s.isExpire k now = some true then (s.deleteOp k).1 else s)
      p.2, .null)
  | .del keys =>
    let p := keys.foldl
      (fun (p : Storage × Nat) k =>
        ((p.1.deleteOp k).1, p.2 + if (p.1.deleteOp k).2 then 1 else 0))
      (st, 0)
    some (p.1, .integer p.2)
  | .expire key ttl =>
    if st.isExist key then
      some (st.expireOp key (ttl * 1000) now, .integer 1)
    else
      some (st, .integer 0)
  | .ttl key => some (st, .integer (st.ttlOp key now))
  | .existsKeys keys =>
    some (st, .integer (keys.countP (fun k => st.isExist k)))
  | .flush => some (Storage.new, .simpleString (strBytes "OK"))
  | .get key => some (st, coreGet st key now)
  | .set key value =>
    some (st.setOp key (.string value), .simpleString (strBytes "OK"))
  | .setNx key value =>
    match st.getOp key now with
    | .ok (some _) => some (st, .integer 0)
    | .ok none => some (st.setOp key (.string value), .integer 1)
    | .error e => some (st, translateError e)
  | .getSet key value =>
    match st.getOp key now with
    | .ok (some (.string s)) => some (st.setOp key (.string value), .bulkString s)
    | .ok (some (.integer n)) =>
      some (st.setOp key (.string value), .bulkString (asciiOfInt n))
    | .ok (some (.list _)) => some (st, .error wrongTypeMsg)
    | .ok none => some (st.setOp key (.string value), .null)
    | .error e => some (st, translateError e)
  | .getDel key =>
    match st.getOp key now with
    | .ok (some (.string s)) => some ((st.deleteOp key).1, .bulkString s)
    | .ok (some (.integer n)) =>
      some ((st.deleteOp key).1, .bulkString (asciiOfInt n))
    | .ok (some (.list _)) => some (st, .error wrongTypeMsg)
    | .ok none => some ((st.deleteOp key).1, .null)
    | .error e => some (st, translateError e)
  | .mGet keys => some (st, .array (keys.map (fun k => coreGet st k now)))
  | .mSet keys values =>
    (msetLoop st keys values).map (fun st' => (st', .simpleString (strBytes "OK")))
  | .incr key =>
    let p := st.incrOp key 1 now
    some (p.1, intResponse p.2)
  | .decr key =>
    let p := st.incrOp key (-1) now
    some (p.1, intResponse p.2)
  | .incrBy key value =>
    match parseIsize value with
    | some i =>
      let p := st.incrOp key i now
      some (p.1, intResponse p.2)
    | none => some (st, .error notIntegerMsg)
  | .decrBy key value =>
    match parseIsize value with
    | some i =>
      let p := st.incrOp key (-i) now
      some (p.1, intResponse p.2)
    | none => some (st, .error notIntegerMsg)
  | .lPush key values =>
    let p := st.pushOp key values .front now
    some (p.1, natResponse p.2)
  | .rPush key values =>
    let p := st.pushOp key values .back now
    some (p.1, natResponse p.2)
  | .lPop key count =>
    let p := st.popOp key count .front now
    some (p.1, popResponse p.2)
  | .rPop key count =>
    let p := st.popOp key count .back now
    some (p.1, popResponse p.2)

/-- RESP encoder from `outbound.rs` (`encode`): a pure, total function
from responses to bytes. -/
def encode : CommandResponse → List Nat
  | .simpleString s => 43 :: (s ++ [13, 10])
  | .bulkString b => 36 :: (asciiOfNat b.length ++ [13, 10] ++ b ++ [13, 10])
  | .integer n => 58 :: (asciiOfInt n ++ [13, 10])
  | .error msg => 45 :: (strBytes msg ++ [13, 10])
  | .null => [36, 45, 49, 13, 10]
  | .array items =>
    42 :: (asciiOfNat items.length ++ [13, 10]
      ++ (items.attach.map (fun x => encode x.1)).flatten)
  | .nullArray => [42, 45, 49, 13, 10]
decreasing_by
  simp_wf
  have := List.sizeOf_lt_of_mem x.2
  omega

/-- Token of the inbound stream (`inbound.rs`): `String(Vec<u8>)` or
`Array(usize)`. -/
inductive Token
  | string (payload : List Nat)
  | array (count : Nat)
  deriving DecidableEq, Repr

/-- Result of `consume_line`: the line with `\r\n` stripped plus the
rest of the input, a `MissingCrlf` error, or a panic (slicing
`buffer[buffer.len() - 2..]` with a buffer shorter than two bytes). -/
inductive LineResult
  | ok (line rest : List Nat)
  | errMissingCrlf
  | panicked
  deriving DecidableEq, Repr

/-- Outcome of one `next_token` call. -/
inductive TokenResult
  | ok (t : Token) (rest : List Nat)
  | err
  | panicked
  deriving DecidableEq, Repr

/-- What `TokenIter::next` does with the outcome: yield a token,
terminate the stream (`None` on any error), or panic. -/
inductive NextOutcome
  | yields (t : Token) (rest : List Nat)
  | stops
  | panics
  deriving DecidableEq, Repr

/-- `BufRead::read_until(10, ..)`: the consumed bytes up to and
including the first `\n` (everything, if the input ends first) and the
remaining input.  End of input is not an error for `read_until`. -/
def readUntil10 : List Nat → List Nat × List Nat
  | [] => ([], [])
  | b :: rest =>
    if b = 10 then ([10], rest)
    else
      let (buf, r) := readUntil10 rest
      (b :: buf, r)

/-- `TokenIter::consume_bytes` via `read_exact`: exactly `amount` bytes,
or an I/O error when the input is shorter. -/
def consumeBytes (amount : Nat) (input : List Nat) :
    Option (List Nat × List Nat) :=
  if amount ≤ input.length then some (input.take amount, input.drop amount)
  else none

/-- `TokenIter::consume_line`. -/
def consumeLine (input : List Nat) : LineResult :=
  let p := readUntil10 input
  if p.1.length < 2 then .panicked
  else if p.1.reverse.take 2 = [10, 13] then .ok p.1.dropLast.dropLast p.2
  else .errMissingCrlf

/-- `TokenIter::next_token`.  Panic paths of the source, in order: the
`*` arm unwraps `consume_line` (a missing `\r\n` there panics); a tag
byte that is neither `$` nor `*` hits `unreachable!()`; a negative `$`
length cast `as usize` makes `vec![0; n]` overflow its capacity; and
`consume_line` itself can panic on a short buffer. -/
def nextToken (input : List Nat) : TokenResult :=
  match consumeBytes 1 input with
  | none => .err
  | some (prefixByte, rest) =>
    if prefixByte = [36] then
      match consumeLine rest with
      | .panicked => .panicked
      | .errMissingCrlf => .err
      | .ok line rest2 =>
        match parseIsize line with
        | none => .err
        | some len =>
          if len < 0 then .panicked
          else
            match consumeBytes len.toNat rest2 with
            | none => .err
            | some (payload, rest3) =>
              match consumeBytes 2 rest3 with
              | none => .err
              | some (_, rest4) => .ok (.string payload) rest4
    else if prefixByte = [42] then
      match consumeLine rest with
      | .panicked => .panicked
      | .errMissingCrlf => .panicked
      | .ok line rest2 =>
        match parseIsize line with
        | none => .err
        | some n => .ok (.array (n % (2 ^ 64)).toNat) rest2
    else .panicked

/-- `TokenIter::next`: `Some(token)` on success, `None` (stream over) on
any error, and the panics pass through. -/
def tokenNext (input : List Nat) : NextOutcome :=
  match nextToken input with
  | .ok t rest => .yields t rest
  | .err => .stops
  | .panicked => .panics

/-- Outcome of `sender.send(response_bytes).unwrap()` in the dispatcher
loop of `server.rs`: `mpsc::Sender::send` succeeds exactly when the
receiver is still alive, and the `unwrap` turns the send error into a
panic. -/
inductive SendOutcome
  | sent (bytes : List Nat)
  | panics
  deriving Repr

/-- One iteration of the dispatcher loop in `Server::start`: dequeue
(already done by the caller), `handle_command`, `encode`, send.  `none`
propagates the only panic inside `handle_command`. -/
def dispatchOnce (st : Storage) (c : Command) (now : Nat)
    (receiverAlive : Bool) : Option (Storage × SendOutcome) :=
  (handleCommand st c now).map
    (fun p => (p.1, if receiverAlive then .sent (encode p.2) else .panics))

/-- A command record is well formed when its MSET argument lists pair
up; the command parser in `inbound.rs` only emits such records
(`keys.len() != values.len()` is rejected with `MissingArguments`). -/
def wellFormed : Command → Prop
  | .mSet keys values => keys.length = values.length
  | _ => True

instance : DecidablePred wellFormed := fun c => by
  cases c <;> simp only [wellFormed] <;> infer_instance

/-- Iterated single-element pops against the store: run `pop(key, 1, end)`
`n` times, concatenating the popped values, stopping at the first reply
that is not `Ok(Some(..))`.  This scripts the "n subsequent single-element
RPOP operations" of the list round-trip property. -/
def popRun (st : Storage) (k : Key) (listEnd : ListEnd) (now : Nat) :
    Nat → List (List Nat)
  | 0 => []
  | n + 1 =>
    let p := st.popOp k 1 listEnd now
    match p.2 with
    | .ok (some vs) => vs ++ popRun p.1 k listEnd now n
    | _ => []

/-- Discriminator: is this response a `SimpleString`? -/
def CommandResponse.isSimpleStr : CommandResponse → Bool
  | .simpleString _ => true
  | _ => false

/-! Helper lemmas about decimal formatting and parsing. -/

theorem asciiOfNat_all_digit (n : Nat) : ∀ b ∈ asciiOfNat n, isDigit b := by
  induction n using Nat.strong_induction_on with
  | _ n ih =>
    rw [asciiOfNat]
    split
    · intro b hb
      rcases List.mem_singleton.1 hb with rfl
      simp only [isDigit, Bool.and_eq_true, decide_eq_true_eq]
      omega
    · intro b hb
      rcases List.mem_append.1 hb with h | h
      · exact ih (n / 10) (Nat.div_lt_self (by omega) (by omega)) b h
      · rcases List.mem_singleton.1 h with rfl
        have : n % 10 < 10 := Nat.mod_lt _ (by omega)
        simp only [isDigit, Bool.and_eq_true, decide_eq_true_eq]
        omega

theorem asciiOfNat_ne_nil (n : Nat) : asciiOfNat n ≠ [] := by
  rw [asciiOfNat]
  split
  · simp
  · simp

theorem digit_bounds {b : Nat} (h : isDigit b) : 48 ≤ b ∧ b ≤ 57 := by
  simp only [isDigit, Bool.and_eq_true, decide_eq_true_eq] at h
  exact h

theorem ten_not_mem_ascii (n : Nat) : 10 ∉ asciiOfNat n := by
  intro h
  have := digit_bounds (asciiOfNat_all_digit n 10 h)
  omega

theorem digitsToNat_append (l : List Nat) (b : Nat) :
    digitsToNat (l ++ [b]) = 10 * digitsToNat l + (b - 48) := by
  simp [digitsToNat, List.foldl_append, Nat.mul_comm]

theorem digitsToNat_ascii (n : Nat) : digitsToNat (asciiOfNat n) = n := by
  induction n using Nat.strong_induction_on with
  | _ n ih =>
    rw [asciiOfNat]
    split
    · simp [digitsToNat]
    · rw [digitsToNat_append, ih (n / 10) (Nat.div_lt_self (by omega) (by omega))]
      omega

theorem parseIsize_ascii (n : Nat) : parseIsize (asciiOfNat n) = some (n : Int) := by
  rcases h : asciiOfNat n with _ | ⟨b, rest⟩
  · exact absurd h (asciiOfNat_ne_nil n)
  · have hall : ∀ x ∈ asciiOfNat n, isDigit x := asciiOfNat_all_digit n
    have hb : isDigit b := hall b (by rw [h]; exact List.mem_cons_self _ _)
    have hb48 := digit_bounds hb
    have h43 : b ≠ 43 := by omega
    have h45 : b ≠ 45 := by omega
    have hall' : (b :: rest).all isDigit = true := by
      rw [← h]
      exact List.all_eq_true.2 hall
    rw [parseIsize, if_neg h43, if_neg h45, if_pos hall', ← h, digitsToNat_ascii]
    rfl

/-! Helper lemmas about the byte-stream primitives of `inbound.rs`. -/

theorem readUntil10_split (l1 l2 : List Nat) (h : 10 ∉ l1) :
    readUntil10 (l1 ++ 10 :: l2) = (l1 ++ [10], l2) := by
  induction l1 with
  | nil => simp [readUntil10]
  | cons a t ih =>
    have ha : a ≠ 10 := fun e => h (by simp [e])
    rw [List.cons_append, readUntil10]
    simp only [if_neg ha]
    rw [ih (fun m => h (List.mem_cons_of_mem _ m))]
    simp

theorem consumeLine_crlf (line rest : List Nat) (h : 10 ∉ line) :
    consumeLine (line ++ 13 :: 10 :: rest) = .ok line rest := by
  have h' : 10 ∉ line ++ [13] := by
    intro hm
    rcases List.mem_append.1 hm with hm | hm
    · exact h hm
    · simp at hm
  have hsplit := readUntil10_split (line ++ [13]) rest h'
  rw [consumeLine]
  rw [show line ++ 13 :: 10 :: rest = (line ++ [13]) ++ 10 :: rest by simp]
  rw [hsplit]
  have hlen : ¬ ((line ++ [13]) ++ [10]).length < 2 := by
    simp
  rw [if_neg hlen]
  have hrev : (((line ++ [13]) ++ [10]).reverse.take 2) = [10, 13] := by
    simp
  rw [if_pos hrev]
  have hdrop : (((line ++ [13]) ++ [10]).dropLast.dropLast) = line := by
    rw [List.dropLast_concat, List.dropLast_concat]
  rw [hdrop]

theorem consumeBytes_exact (b suf : List Nat) :
    consumeBytes b.length (b ++ suf) = some (b, suf) := by
  rw [consumeBytes, if_pos (by simp)]
  rw [List.take_left, List.drop_left]

theorem consumeBytes_one (b : Nat) (rest : List Nat) :
    consumeBytes 1 (b :: rest) = some ([b], rest) := by
  rw [consumeBytes, if_pos (by simp)]
  simp

/-- Claim C3 — for every byte payload `b`, encoding `BulkString(b)`
produces exactly `$` ++ ASCII(len b) ++ CRLF ++ b ++ CRLF, and the token
stream turns those bytes into the token `String(b)` with nothing left
over (round-trip identity). -/
theorem c3_bulkstring_roundtrip (b : List Nat) :
    encode (.bulkString b) =
      36 :: (asciiOfNat b.length ++ [13, 10] ++ b ++ [13, 10]) ∧
    tokenNext (encode (.bulkString b)) = .yields (.string b) [] := by
  have henc : encode (.bulkString b)
      = 36 :: (asciiOfNat b.length ++ 13 :: 10 :: (b ++ [13, 10])) := by
    rw [encode]
    simp
  constructor
  · rw [henc]
    simp
  · have hneg : ¬ ((b.length : Int) < 0) := by omega
    have htn : ((b.length : Int)).toNat = b.length := Int.toNat_natCast _
    have h2 : consumeBytes 2 ([13, 10] : List Nat) = some ([13, 10], []) := rfl
    simp only [henc, tokenNext, nextToken, consumeBytes_one,
      consumeLine_crlf _ _ (ten_not_mem_ascii _), parseIsize_ascii,
      if_neg hneg, htn, consumeBytes_exact, h2, reduceIte]

/-- Claim C1 — evidence of the divergence: the source's `Storage::incr`
executes `self.set(key.clone(), 1 as isize); Ok(1)` on an absent key, so
DECR of an absent key stores `Integer(1)` and answers `1` (the claim —
and Redis — require `-1`), and INCRBY by 5 of an absent key also stores
`Integer(1)` and answers `1` (the claim requires `5`). -/
theorem c1_incr_absent_evaluation :
    handleCommand Storage.new (.decr [107]) 0 =
      some (⟨[([107], (.integer 1, none))], []⟩, .integer 1) ∧
    handleCommand Storage.new (.incrBy [107] [53]) 0 =
      some (⟨[([107], (.integer 1, none))], []⟩, .integer 1) :=
  ⟨rfl, rfl⟩

/-- Claim C2, counterexample — a key present with 500 ms of life left:
`ttl` answers `0`, which is neither `-2` nor `-1` nor strictly positive,
refuting "the returned value is always in {-2, -1} ∪ ℕ⁺ (never 0)". -/
theorem c2_counterexample :
    Storage.ttlOp ⟨[([107], (.string [97], some 500))], []⟩ [107] 0 = 0 ∧
    ¬ (Storage.ttlOp ⟨[([107], (.string [97], some 500))], []⟩ [107] 0 = -2 ∨
       Storage.ttlOp ⟨[([107], (.string [97], some 500))], []⟩ [107] 0 = -1 ∨
       0 < Storage.ttlOp ⟨[([107], (.string [97], some 500))], []⟩ [107] 0) := by
  decide

/-- Claim C2 as amended — `ttl` answers `-2` iff the key is absent from
the table (an expired-but-unswept entry still counts as present), `-1`
iff the key is present without an expiration, and otherwise the
saturated remaining time in whole seconds, a natural number that may be
`0` (when the entry is expired or has less than a second left). -/
theorem c2_ttl_characterization (st : Storage) (k : Key) (now : Nat) :
    (st.ttlOp k now = -2 ↔ tableLookup st.table k = none) ∧
    (st.ttlOp k now = -1 ↔ ∃ v, tableLookup st.table k = some (v, none)) ∧
    (∀ v e, tableLookup st.table k = some (v, some e) →
      st.ttlOp k now = (((e - now) / 1000 : Nat) : Int)) ∧
    (st.ttlOp k now = -2 ∨ st.ttlOp k now = -1 ∨ 0 ≤ st.ttlOp k now) := by
  rcases h : tableLookup st.table k with _ | ⟨v, e⟩
  · refine ⟨?_, ?_, ?_, ?_⟩
    · simp [Storage.ttlOp, h]
    · simp [Storage.ttlOp, h]
    · intro v' e' he
      exact absurd he (by simp)
    · simp [Storage.ttlOp, h]
  · rcases e with _ | exp
    · refine ⟨?_, ?_, ?_, ?_⟩
      · simp [Storage.ttlOp, h]
      · simp [Storage.ttlOp, h]
      · intro v' e' he
        exact absurd he (by simp)
      · simp [Storage.ttlOp, h]
    · have hc : (0 : Int) ≤ (((exp - now) / 1000 : Nat) : Int) :=
        Int.natCast_nonneg _
      refine ⟨?_, ?_, ?_, ?_⟩
      · simp only [Storage.ttlOp, h]
        constructor
        · intro hx
          omega
        · intro hx
          simp at hx
      · simp only [Storage.ttlOp, h]
        constructor
        · intro hx
          omega
        · rintro ⟨v', hv'⟩
          simp at hv'
      · intro v' e' he
        simp only [Option.some.injEq, Prod.mk.injEq] at he
        obtain ⟨-, rfl⟩ := he
        simp [Storage.ttlOp, h]
      · right
        right
        simpa [Storage.ttlOp, h] using hc

/-- Claim C2, witness — the characterization evaluated at two concrete
stores: an empty store gives `-2`, and a key with 2500 ms left gives `2`. -/
theorem c2_witness :
    Storage.ttlOp ⟨[], []⟩ [107] 0 = -2 ∧
    Storage.ttlOp ⟨[([107], (.string [97], some 2500))], []⟩ [107] 0 = 2 := by
  constructor
  · exact (c2_ttl_characterization ⟨[], []⟩ [107] 0).1.mpr rfl
  · have h := (c2_ttl_characterization
      ⟨[([107], (.string [97], some 2500))], []⟩ [107] 0).2.2.1
      (.string [97]) 2500 rfl
    rw [h]
    decide

/-! Helper lemmas about the list-deque loop of `Storage::pop`. -/

theorem popN_front (n : Nat) (l : List (List Nat)) :
    Storage.popN .front n l = (l.take n, l.drop n) := by
  induction n generalizing l with
  | zero => simp [Storage.popN]
  | succ n ih =>
    cases l with
    | nil => simp [Storage.popN, Storage.popOne]
    | cons a t => simp [Storage.popN, Storage.popOne, ih]

theorem popN_back (n : Nat) (l : List (List Nat)) :
    Storage.popN .back n l = (l.reverse.take n, (l.reverse.drop n).reverse) := by
  induction n generalizing l with
  | zero => simp [Storage.popN]
  | succ n ih =>
    rcases hl : l.reverse with _ | ⟨v, t⟩
    · have hnil : l = [] := by
        have := congrArg List.reverse hl
        simpa using this
      subst hnil
      simp [Storage.popN, Storage.popOne]
    · simp only [Storage.popN, Storage.popOne, hl, ih]
      simp

theorem tableLookup_single (k : Key) (e : Entry) :
    tableLookup [(k, e)] k = some e := by
  simp [tableLookup]

theorem getRaw_single_noexp (k : Key) (v : StorageValue)
    (hp : List (Key × Nat)) (now : Nat) :
    Storage.getRaw ⟨[(k, (v, none))], hp⟩ k now = some v := by
  simp [Storage.getRaw, tableLookup_single]

theorem popOp_single_back (k : Key) (now : Nat) (hp : List (Key × Nat))
    (a : List Nat) (t : List (List Nat)) :
    Storage.popOp ⟨[(k, (.list ((a :: t).reverse), none))], hp⟩ k 1 .back now
      = (⟨[(k, (.list t.reverse, none))], hp⟩, .ok (some [a])) := by
  rw [Storage.popOp]
  rw [show Storage.getRaw ⟨[(k, (.list ((a :: t).reverse), none))], hp⟩ k now
      = some (.list ((a :: t).reverse)) from getRaw_single_noexp ..]
  simp [popN_back, Storage.updateValue, Storage.updateValue.updFirst]

theorem popRun_reversed (k : Key) (now : Nat) (hp : List (Key × Nat)) :
    ∀ m : List (List Nat),
      popRun ⟨[(k, (.list m.reverse, none))], hp⟩ k .back now m.length = m := by
  intro m
  induction m with
  | nil => rfl
  | cons a t ih =>
    show popRun ⟨[(k, (.list ((a :: t).reverse), none))], hp⟩ k .back now
      (t.length + 1) = a :: t
    rw [popRun, popOp_single_back]
    simpa using ih

/-- Claim C4, counterexample — after `LPUSH k [a, b]` on an empty store
the stored deque is `[b, a]`: its head is the rightmost argument `b`,
not the leftmost argument `a` as the claim's parenthetical asserts. -/
theorem c4_counterexample :
    (Storage.new.pushOp [107] [[97], [98]] .front 0).1.getRaw [107] 0
      = some (.list [[98], [97]]) ∧
    ([[98], [97]] : List (List Nat)).head? ≠ some [97] := by
  decide

/-- Claim C4 as amended — `LPUSH k [v₁..vₙ]` on a store where `k` is
absent returns `n` and stores the reversed argument list (so the head of
the deque is the rightmost argument), and `n` subsequent single-element
`RPOP k` operations yield `v₁, .., vₙ` in argument order. -/
theorem c4_lpush_rpop_roundtrip (k : Key) (vs : List (List Nat)) (now : Nat) :
    (Storage.new.pushOp k vs .front now).2 = .ok vs.length ∧
    (Storage.new.pushOp k vs .front now).1.table
      = [(k, (.list vs.reverse, none))] ∧
    popRun (Storage.new.pushOp k vs .front now).1 k .back now vs.length = vs := by
  have hpush : Storage.new.pushOp k vs .front now
      = (⟨[(k, (.list vs.reverse, none))], []⟩, .ok vs.length) := by
    rw [Storage.pushOp]
    rw [show Storage.getRaw Storage.new k now = none from rfl]
    rfl
  refine ⟨by rw [hpush], by rw [hpush], ?_⟩
  rw [hpush]
  exact popRun_reversed k now [] vs

/-! Helper lemma about `Storage::expire`'s table update. -/

theorem updExp_lookup (t : List (Key × Entry)) (k : Key) (x : Nat)
    (v : StorageValue) (e : Option Nat)
    (h : tableLookup t k = some (v, e)) :
    tableLookup (Storage.expireOp.updExp t k x) k = some (v, some x) := by
  induction t with
  | nil => simp [tableLookup] at h
  | cons p rest ih =>
    obtain ⟨k', v', e'⟩ := p
    by_cases hk : k' = k
    · subst hk
      simp only [tableLookup, if_pos rfl, Option.some.injEq, Prod.mk.injEq] at h
      obtain ⟨rfl, rfl⟩ := h
      simp [Storage.expireOp.updExp, tableLookup]
    · simp only [tableLookup, if_neg hk] at h
      simp [Storage.expireOp.updExp, hk, tableLookup, ih h]

/-- Claim C5, counterexample — a key present in the table whose stored
expiration (5 ms) is already past at `now = 10`: the claim requires
`EXPIRE` to answer 0 and leave everything unchanged, but the code's
`is_exist` only checks raw table membership, so it answers 1 and
installs the new expiration. -/
theorem c5_counterexample :
    ¬ (handleCommand ⟨[([107], (.string [97], some 5))], []⟩ (.expire [107] 7) 10
        = some (⟨[([107], (.string [97], some 5))], []⟩, .integer 0)) := by
  intro hcl
  have hev : handleCommand ⟨[([107], (.string [97], some 5))], []⟩
      (.expire [107] 7) 10
      = some (⟨[([107], (.string [97], some 7010))], [([107], 7010)]⟩,
          .integer 1) := rfl
  rw [hev] at hcl
  simp at hcl

/-- Claim C5 as amended — `EXPIRE k ttl` answers 0 and leaves the store
(table and heap) untouched exactly when `k` is absent from the table; a
present-but-expired entry still counts as present, in which case — as
for any present key — the entry's expiration becomes `now +
ttl*1000` ms (value preserved), the pair `(k, now + ttl*1000)` is pushed
onto the expiration heap, and the answer is 1. -/
theorem c5_expire_characterization (st : Storage) (k : Key) (ttl now : Nat) :
    (st.isExist k = false →
      handleCommand st (.expire k ttl) now = some (st, .integer 0)) ∧
    (st.isExist k = true →
      handleCommand st (.expire k ttl) now
        = some (st.expireOp k (ttl * 1000) now, .integer 1) ∧
      (st.expireOp k (ttl * 1000) now).heap
        = (k, now + ttl * 1000) :: st.heap ∧
      ∀ v e, tableLookup st.table k = some (v, e) →
        tableLookup (st.expireOp k (ttl * 1000) now).table k
          = some (v, some (now + ttl * 1000))) := by
  constructor
  · intro hne
    simp [handleCommand, hne]
  · intro hex
    refine ⟨by simp [handleCommand, hex], rfl, ?_⟩
    intro v e h
    exact updExp_lookup st.table k (now + ttl * 1000) v e h

/-- Claim C5, witness — the characterization applied to an empty store
(absent branch) and to a singleton store (present branch). -/
theorem c5_witness :
    handleCommand ⟨[], []⟩ (.expire [107] 7) 10 = some (⟨[], []⟩, .integer 0) ∧
    handleCommand ⟨[([107], (.string [97], none))], []⟩ (.expire [107] 7) 10
      = some (⟨[([107], (.string [97], some 7010))], [([107], 7010)]⟩,
          .integer 1) := by
  constructor
  · exact (c5_expire_characterization ⟨[], []⟩ [107] 7 10).1 rfl
  · exact ((c5_expire_characterization ⟨[([107], (.string [97], none))], []⟩
      [107] 7 10).2 rfl).1

/-- Claim C6, counterexample — `MGET` of a key holding `Integer(5)` (at
index 0) and of a key holding an already-expired `String` entry (at
index 1, stored expiration 5 ms, `now` = 10): the Integer key yields an
`Integer` element, not a SimpleString, and the expired key yields its
`SimpleString` value, not Null (the source's visibility guard
`*exp > now => None` is inverted, so expired entries read as present). -/
theorem c6_counterexample :
    handleCommand
        ⟨[([107], (.integer 5, none)), ([108], (.string [99], some 5))], []⟩
        (.mGet [[107], [108]]) 10
      = some (⟨[([107], (.integer 5, none)), ([108], (.string [99], some 5))], []⟩,
          .array [.integer 5, .simpleString [99]]) ∧
    (CommandResponse.integer 5).isSimpleStr = false ∧
    (CommandResponse.simpleString [99]).isSimpleStr = true :=
  ⟨rfl, rfl, rfl⟩

/-- Claim C6 as amended — `MGET` answers one element per key in order;
an element is `Null` when the key is invisible to the storage read
(absent from the table, or carrying an expiration still in the future —
the source's guard is inverted), a `SimpleString` for a visible String,
an `Integer` response for a visible Integer, and the WRONGTYPE error for
a visible List. -/
theorem c6_mget_characterization (st : Storage) (keys : List Key) (now : Nat) :
    handleCommand st (.mGet keys) now
      = some (st, .array (keys.map (fun k => coreGet st k now))) ∧
    (∀ k : Key,
      (st.getRaw k now = none → coreGet st k now = .null) ∧
      (∀ s, st.getRaw k now = some (.string s) →
        coreGet st k now = .simpleString s) ∧
      (∀ n, st.getRaw k now = some (.integer n) →
        coreGet st k now = .integer n) ∧
      (∀ l, st.getRaw k now = some (.list l) →
        coreGet st k now = .error wrongTypeMsg)) ∧
    (∀ (k : Key) (v : StorageValue) (e : Nat),
      tableLookup st.table k = some (v, some e) →
      (now < e → st.getRaw k now = none) ∧
      (e ≤ now → st.getRaw k now = some v)) := by
  refine ⟨rfl, ?_, ?_⟩
  · intro k
    refine ⟨?_, ?_, ?_, ?_⟩
    · intro h
      simp [coreGet, Storage.getOp, h]
    · intro x h
      simp [coreGet, Storage.getOp, h]
    · intro n h
      simp [coreGet, Storage.getOp, h]
    · intro l h
      simp [coreGet, Storage.getOp, h, translateError]
  · intro k v e h
    constructor
    · intro hlt
      simp [Storage.getRaw, h, hlt]
    · intro hle
      have hngt : ¬ (e > now) := by omega
      simp [Storage.getRaw, h, hngt]

/-- Claim C6, witness — the characterization evaluated at singleton
stores: a visible Integer yields an `Integer` element, and an expired
String entry is still visible to the read. -/
theorem c6_witness :
    coreGet ⟨[([107], (.integer 5, none))], []⟩ [107] 0 = .integer 5 ∧
    Storage.getRaw ⟨[([108], (.string [99], some 5))], []⟩ [108] 10
      = some (.string [99]) := by
  constructor
  · exact ((c6_mget_characterization ⟨[([107], (.integer 5, none))], []⟩
      [] 0).2.1 [107]).2.2.1 5 rfl
  · exact ((c6_mget_characterization ⟨[([108], (.string [99], some 5))], []⟩
      [] 10).2.2 [108] (.string [99]) 5 rfl).2 (by decide)

/-! Totality of the dispatcher body. -/

theorem msetLoop_isSome (st : Storage) (keys : List Key)
    (values : List (List Nat)) (h : keys.length ≤ values.length) :
    (msetLoop st keys values).isSome := by
  induction keys generalizing st values with
  | nil => simp [msetLoop]
  | cons k ks ih =>
    cases values with
    | nil => simp at h
    | cons v vs2 =>
      simp only [List.length_cons, Nat.add_le_add_iff_right] at h
      simpa [msetLoop] using ih (st.setOp k (.string v)) vs2 h

theorem handleCommand_isSome (st : Storage) (c : Command) (now : Nat)
    (wf : wellFormed c) : (handleCommand st c now).isSome := by
  cases c with
  | mSet keys values =>
    have h := msetLoop_isSome st keys values (le_of_eq wf)
    rcases hm : msetLoop st keys values with _ | st2
    · rw [hm] at h
      simp at h
    · simp [handleCommand, hm]
  | expire k ttl =>
    simp only [handleCommand]
    split <;> rfl
  | incrBy k v =>
    simp only [handleCommand]
    rcases parseIsize v with _ | i <;> rfl
  | decrBy k v =>
    simp only [handleCommand]
    rcases parseIsize v with _ | i <;> rfl
  | setNx k v =>
    simp only [handleCommand]
    rcases st.getOp k now with e | o
    · rfl
    · rcases o with _ | x <;> rfl
  | getSet k v =>
    simp only [handleCommand]
    rcases st.getOp k now with e | o
    · rfl
    · rcases o with _ | x
      · rfl
      · rcases x with s | n | l <;> rfl
  | getDel k =>
    simp only [handleCommand]
    rcases st.getOp k now with e | o
    · rfl
    · rcases o with _ | x
      · rfl
      · rcases x with s | n | l <;> rfl
  | _ => rfl

/-- Claim C7, counterexample — a dispatcher iteration whose reply
channel receiver has been dropped: `sender.send(..).unwrap()` panics
instead of discarding the reply. -/
theorem c7_counterexample :
    (dispatchOnce Storage.new (.get [107]) 0 false).map (fun p => p.2)
      = some SendOutcome.panics := rfl

/-- Claim C7 as amended — for every well-formed command (MSET argument
lists pair up, as the parser guarantees) the dispatcher body always
produces a store and a `Response`; with a live receiver the encoded
bytes are sent, but with a dropped receiver the iteration panics on the
unwrapped send error rather than discarding the reply. -/
theorem c7_dispatch_total (st : Storage) (c : Command) (now : Nat)
    (alive : Bool) (wf : wellFormed c) :
    ∃ st' resp, handleCommand st c now = some (st', resp) ∧
      dispatchOnce st c now alive
        = some (st', if alive then .sent (encode resp) else .panics) := by
  obtain ⟨⟨st', resp⟩, hp⟩ :=
    Option.isSome_iff_exists.1 (handleCommand_isSome st c now wf)
  exact ⟨st', resp, hp, by simp [dispatchOnce, hp]⟩

/-- Claim C7, witness — the dispatch-totality theorem applied to
`FLUSHALL` on an empty store with a live receiver. -/
theorem c7_witness :
    ∃ st' resp, handleCommand Storage.new .flush 0 = some (st', resp) ∧
      dispatchOnce Storage.new .flush 0 true
        = some (st', .sent (encode resp)) := by
  have h := c7_dispatch_total Storage.new .flush 0 true trivial
  simpa using h

/-! Lemma for the bare-newline framing error. -/

theorem consumeLine_bareLf (line rest : List Nat) (h10 : 10 ∉ line)
    (hne : line ≠ []) (h13 : 13 ∉ line) :
    consumeLine (line ++ 10 :: rest) = .errMissingCrlf := by
  have hsplit := readUntil10_split line rest h10
  rw [consumeLine, hsplit]
  have hlen : ¬ ((line ++ [10]).length < 2) := by
    rcases line with _ | ⟨a, t⟩
    · exact absurd rfl hne
    · simp
  rw [if_neg hlen]
  have hrev : (line ++ [10]).reverse.take 2 ≠ [10, 13] := by
    rcases hl : line.reverse with _ | ⟨c, t⟩
    · exact absurd (by simpa using congrArg List.reverse hl) hne
    · have hcmem : c ∈ line := by
        have : c ∈ line.reverse := by
          rw [hl]
          exact List.mem_cons_self _ _
        simpa using this
      have hc : c ≠ 13 := fun e => h13 (e ▸ hcmem)
      simp [List.reverse_append, hl, hc]
  rw [if_neg hrev]

/-- Claim C8, counterexample — the bytes `*3\n` frame an array token
whose length line ends in a bare `\n`: the claim requires the stream to
terminate by yielding no more tokens without panicking, but the `*` arm
unwraps the `MissingCrlf` error and panics. -/
theorem c8_counterexample :
    tokenNext [42, 51, 10] = .panics ∧
    NextOutcome.panics ≠ NextOutcome.stops := by
  decide

/-- Claim C8 as amended — on a `$` bulk-string token the stream does
terminate gracefully on the claim's framing errors: a length line ending
in a bare `\n`, a length line that is not an integer, and end of input
inside the payload all yield no more tokens; but the same bare-`\n`
length line after a `*` tag panics (the source unwraps `consume_line`
there), so the tokenizer is not total. -/
theorem c8_framing (line rest : List Nat) (h10 : 10 ∉ line) :
    (line ≠ [] → 13 ∉ line →
      tokenNext (36 :: (line ++ 10 :: rest)) = .stops ∧
      tokenNext (42 :: (line ++ 10 :: rest)) = .panics) ∧
    (parseIsize line = none →
      tokenNext (36 :: (line ++ 13 :: 10 :: rest)) = .stops ∧
      tokenNext (42 :: (line ++ 13 :: 10 :: rest)) = .stops) ∧
    (∀ n : Nat, rest.length < n →
      tokenNext (36 :: (asciiOfNat n ++ 13 :: 10 :: rest)) = .stops) := by
  refine ⟨?_, ?_, ?_⟩
  · intro hne h13
    have hcl := consumeLine_bareLf line rest h10 hne h13
    constructor <;> simp [tokenNext, nextToken, consumeBytes_one, hcl]
  · intro hp
    have hcl := consumeLine_crlf line rest h10
    constructor <;> simp [tokenNext, nextToken, consumeBytes_one, hcl, hp]
  · intro n hn
    have hcl := consumeLine_crlf (asciiOfNat n) rest (ten_not_mem_ascii n)
    have hshort : consumeBytes n rest = none := by
      rw [consumeBytes, if_neg]
      omega
    simp [tokenNext, nextToken, consumeBytes_one, hcl, parseIsize_ascii,
      hshort]
    rw [if_neg (by omega : ¬ ((n : Int) < 0))]

/-- Claim C8, witness — the amended framing behavior at concrete inputs:
`$3` with a bare newline stops, `$a\r\n` (non-integer length) stops, and
`$3\r\n` followed by a single payload byte (EOF mid-payload) stops. -/
theorem c8_witness :
    tokenNext [36, 51, 10] = .stops ∧
    tokenNext [36, 97, 13, 10] = .stops ∧
    tokenNext [36, 51, 13, 10, 97] = .stops := by
  refine ⟨((c8_framing [51] [] (by decide)).1 (by decide) (by decide)).1,
    ?_, ?_⟩
  · exact ((c8_framing [97] [] (by decide)).2.1 (by decide)).1
  · have h := (c8_framing [51] [97] (by decide)).2.2 3 (by decide)
    have ha : asciiOfNat 3 = [51] := by
      rw [asciiOfNat]
      norm_num
    rw [ha] at h
    simpa using h

/-! Lemmas for the pop characterization. -/

theorem popN_nil (lend : ListEnd) (n : Nat) :
    Storage.popN lend n [] = ([], []) := by
  cases n with
  | zero => rfl
  | succ m => cases lend <;> rfl

theorem getRaw_lookup (st : Storage) (k : Key) (now : Nat)
    (v : StorageValue) (h : st.getRaw k now = some v) :
    ∃ e, tableLookup st.table k = some (v, e) := by
  rw [Storage.getRaw] at h
  rcases hl : tableLookup st.table k with _ | ⟨v', e'⟩
  · rw [hl] at h
    exact absurd h (by simp)
  · rcases e' with _ | exp
    · rw [hl] at h
      simp only [Option.some.injEq] at h
      exact ⟨none, by rw [h]⟩
    · rw [hl] at h
      by_cases hx : exp > now
      · simp [hx] at h
      · simp only [hx, if_false] at h
        simp only [Option.some.injEq] at h
        exact ⟨some exp, by rw [h]⟩

theorem updFirst_self (t : List (Key × Entry)) (k : Key) (v : StorageValue)
    (e : Option Nat) (h : tableLookup t k = some (v, e)) :
    Storage.updateValue.updFirst t k v = t := by
  induction t with
  | nil => rfl
  | cons p rest ih =>
    obtain ⟨k', v', e'⟩ := p
    by_cases hk : k' = k
    · subst hk
      simp only [tableLookup, if_pos rfl, Option.some.injEq, Prod.mk.injEq] at h
      obtain ⟨rfl, -⟩ := h
      simp [Storage.updateValue.updFirst]
    · simp only [tableLookup, if_neg hk] at h
      simp [Storage.updateValue.updFirst, hk, ih h]

theorem updateValue_self (st : Storage) (k : Key) (v : StorageValue)
    (e : Option Nat) (h : tableLookup st.table k = some (v, e)) :
    st.updateValue k v = st := by
  rw [Storage.updateValue, updFirst_self st.table k v e h]

/-- Claim C9, counterexample — `LPOP k 0` where `k` holds the String
`"a"`: the claim's Null-clause ("returns Null if and only if ... count =
0") demands `Null`, but the code type-checks the key first and answers
the WRONGTYPE error. -/
theorem c9_counterexample :
    handleCommand ⟨[([107], (.string [97], none))], []⟩ (.lPop [107] 0) 0
      = some (⟨[([107], (.string [97], none))], []⟩, .error wrongTypeMsg) ∧
    CommandResponse.error wrongTypeMsg ≠ CommandResponse.null := by
  refine ⟨rfl, ?_⟩
  intro h
  exact CommandResponse.noConfusion h

/-- Claim C9 as amended — `Storage::pop` answers, for either end: `Ok
None` (hence `Null`) when the key is invisible to the storage read, and
also when a List is visible but is empty or `count = 0`, the store left
unchanged; when a non-empty List is visible and `count ≥ 1` it pops
exactly `min count L` elements off the chosen end; and the WRONGTYPE
error — checked before the count — exactly when a non-List value is
visible, the store again unchanged. -/
theorem c9_pop_characterization (st : Storage) (k : Key) (count : Nat)
    (now : Nat) :
    (∀ lend, st.getRaw k now = none →
      st.popOp k count lend now = (st, .ok none)) ∧
    (∀ lend l, st.getRaw k now = some (.list l) → (l = [] ∨ count = 0) →
      st.popOp k count lend now = (st, .ok none)) ∧
    (∀ l, st.getRaw k now = some (.list l) → l ≠ [] → count ≠ 0 →
      st.popOp k count .front now
        = (st.updateValue k (.list (l.drop count)), .ok (some (l.take count))) ∧
      st.popOp k count .back now
        = (st.updateValue k (.list ((l.reverse.drop count).reverse)),
            .ok (some (l.reverse.take count))) ∧
      (l.take count).length = min count l.length ∧
      (l.reverse.take count).length = min count l.length ∧
      l.take count ≠ [] ∧ l.reverse.take count ≠ []) ∧
    (∀ lend s, st.getRaw k now = some (.string s) →
      st.popOp k count lend now = (st, .error .wrongOperationType)) ∧
    (∀ lend n, st.getRaw k now = some (.integer n) →
      st.popOp k count lend now = (st, .error .wrongOperationType)) := by
  refine ⟨?_, ?_, ?_, ?_, ?_⟩
  · intro lend h
    simp [Storage.popOp, h]
  · intro lend l h hz
    obtain ⟨e, hlook⟩ := getRaw_lookup st k now _ h
    have hpn : Storage.popN lend count l = ([], l) := by
      rcases hz with rfl | rfl
      · exact popN_nil lend count
      · rfl
    simp [Storage.popOp, h, hpn, updateValue_self st k _ e hlook]
  · intro l h hne hc
    have htne : l.take count ≠ [] := by
      rcases l with _ | ⟨a, t⟩
      · exact absurd rfl hne
      · rcases count with _ | m
        · exact absurd rfl hc
        · simp
    have hrne : l.reverse.take count ≠ [] := by
      rcases hr : l.reverse with _ | ⟨a, t⟩
      · exact absurd (by simpa using congrArg List.reverse hr) hne
      · rcases count with _ | m
        · exact absurd rfl hc
        · simp
    refine ⟨?_, ?_, ?_, ?_, htne, hrne⟩
    · simp [Storage.popOp, h, popN_front, htne]
    · simp [Storage.popOp, h, popN_back, hrne]
    · simp [List.length_take]
    · simp [List.length_take]
  · intro lend x h
    simp [Storage.popOp, h]
  · intro lend n h
    simp [Storage.popOp, h]

/-- Claim C9, witness — the characterization at concrete stores: a
WRONGTYPE on a visible String key even with `count = 0`; Null on an
invisible key; and `RPOP` of two elements off `[a, b, c]`. -/
theorem c9_witness :
    Storage.popOp ⟨[([107], (.string [97], none))], []⟩ [107] 0 .front 0
      = (⟨[([107], (.string [97], none))], []⟩, .error .wrongOperationType) ∧
    Storage.popOp ⟨[], []⟩ [107] 2 .back 0 = (⟨[], []⟩, .ok none) ∧
    Storage.popOp ⟨[([107], (.list [[97], [98], [99]], none))], []⟩
        [107] 2 .back 0
      = (Storage.updateValue ⟨[([107], (.list [[97], [98], [99]], none))], []⟩
          [107] (.list ([[99], [98], [97]].drop 2).reverse),
          .ok (some ([[99], [98], [97]].take 2))) := by
  refine ⟨?_, ?_, ?_⟩
  · exact (c9_pop_characterization ⟨[([107], (.string [97], none))], []⟩
      [107] 0 0).2.2.2.1 .front [97] rfl
  · exact (c9_pop_characterization ⟨[], []⟩ [107] 2 0).1 .back rfl
  · exact ((c9_pop_characterization
      ⟨[([107], (.list [[97], [98], [99]], none))], []⟩ [107] 2 0).2.2.1
      [[97], [98], [99]] rfl (by decide) (by decide)).2.1

/-- Claim C10, counterexample — a key holding a List whose stored
expiration (100 ms) is still in the future at `now = 0`; under the
spec's data model this key currently holds a List, yet the inverted
visibility guard makes it read as absent, so `GETSET` installs the new
String value and answers Null instead of failing with WRONGTYPE and
leaving the store unchanged. -/
theorem c10_counterexample :
    handleCommand ⟨[([107], (.list [[97]], some 100))], []⟩
        (.getSet [107] [98]) 0
      = some (⟨[([107], (.string [98], none))], []⟩, .null) ∧
    (⟨[([107], (.string [98], none))], []⟩ : Storage)
      ≠ ⟨[([107], (.list [[97]], some 100))], []⟩ := by
  refine ⟨rfl, ?_⟩
  decide

/-- Claim C10 as amended — for every key whose List value is visible to
the storage read (no stored expiration, or an expiration `<= now`; a
List entry with a future expiration reads as absent instead), both
`GETSET` and `GETDEL` answer the WRONGTYPE error and return the store
exactly unchanged — no installation, no deletion, entry and expiration
intact. -/
theorem c10_wrongtype_unchanged (st : Storage) (k : Key)
    (l : List (List Nat)) (value : List Nat) (now : Nat)
    (h : st.getRaw k now = some (.list l)) :
    handleCommand st (.getSet k value) now = some (st, .error wrongTypeMsg) ∧
    handleCommand st (.getDel k) now = some (st, .error wrongTypeMsg) := by
  constructor <;> simp [handleCommand, Storage.getOp, h, translateError]

/-- Claim C10, witness — the amended theorem applied to a store holding
an unexpiring List at the key. -/
theorem c10_witness :
    handleCommand ⟨[([107], (.list [[97]], none))], []⟩ (.getSet [107] [98]) 0
      = some (⟨[([107], (.list [[97]], none))], []⟩, .error wrongTypeMsg) ∧
    handleCommand ⟨[([107], (.list [[97]], none))], []⟩ (.getDel [107]) 0
      = some (⟨[([107], (.list [[97]], none))], []⟩, .error wrongTypeMsg) :=
  c10_wrongtype_unchanged ⟨[([107], (.list [[97]], none))], []⟩ [107]
    [[97]] [98] 0 rfl

end TinyRedis
